import Mathlib

/-!
Verification of the suspending-resource-cache / remote-loader / event-bus core
of the module-federation demo application.

The definitions below are shallow embeddings of the functions in
`packages/cart/src/StreamingShoppingCart.tsx`,
`packages/dashboard/src/StreamingUserDashboard.tsx`,
`packages/shell/src/App.tsx` and the products catalog source.
-/

namespace MFDemo

/-! ## Resource state machine (`createResource`)

`createResource` in `StreamingShoppingCart.tsx` (and identically in
`StreamingUserDashboard.tsx`) keeps a string `status` (`"pending"`,
`"success"`, `"error"`), a `result` slot that holds either the resolved data
or the stored error, and the `suspender` awaitable that `read` throws while
pending.  `T` is the data type, `E` the error type, `S` the type of the
suspender token (the identity of the underlying awaitable). -/

structure ResourceState (T E S : Type) where
  status : String
  result : Option (T ⊕ E)
  suspender : S
deriving DecidableEq

/-- `createResource`'s initial state: `status = "pending"`, `result` not yet
written (the JS `let result: T` is uninitialized), `suspender` the awaitable
returned by `asyncFn().then(...)`. -/
def createResource (T E : Type) {S : Type} (s : S) : ResourceState T E S :=
  { status := "pending", result := none, suspender := s }

/-- The fulfillment callback passed to `.then`: sets `status = "success"` and
stores the data in `result`. -/
def onFulfilled {T E S : Type} (r : ResourceState T E S) (data : T) : ResourceState T E S :=
  { r with status := "success", result := some (Sum.inl data) }

/-- The rejection callback passed to `.then`: sets `status = "error"` and
stores the error in `result`. -/
def onRejected {T E S : Type} (r : ResourceState T E S) (e : E) : ResourceState T E S :=
  { r with status := "error", result := some (Sum.inr e) }

/-- The observable outcome of one `read()` call: throw the suspender
(suspend), throw the stored result (re-raise the error), return the stored
result, or hit the defensive `"Invalid resource state"` branch. -/
inductive ReadOutcome (T E S : Type) where
  | throwSuspender (s : S)
  | throwResult (x : Option (T ⊕ E))
  | returnResult (x : Option (T ⊕ E))
  | invalidState
deriving DecidableEq

/-- `read()` from `createResource`: checks `status` against `"pending"`,
`"error"`, `"success"` in that order. -/
def ResourceState.read {T E S : Type} (r : ResourceState T E S) : ReadOutcome T E S :=
  if r.status == "pending" then ReadOutcome.throwSuspender r.suspender
  else if r.status == "error" then ReadOutcome.throwResult r.result
  else if r.status == "success" then ReadOutcome.returnResult r.result
  else ReadOutcome.invalidState

/-- A settled state of a resource: the state the callbacks of the underlying
awaitable leave behind, for a fulfillment (`Sum.inl`) or rejection
(`Sum.inr`). -/
def settledState (T E : Type) {S : Type} (s : S) (o : T ⊕ E) : ResourceState T E S :=
  match o with
  | Sum.inl v => onFulfilled (createResource T E s) v
  | Sum.inr e => onRejected (createResource T E s) e

/-- Timeline of a resource.  A JS promise settles at most once, at one point
in time; `sa = none` is a promise that never settles, `sa = some (t0, o)`
settles at time `t0` with outcome `o`.  `resourceAt` gives the resource's
state at each instant: `createResource`'s pending state before settlement,
the state written by the (unique) settlement callback afterwards. -/
def resourceAt (T E : Type) {S : Type} (s : S) (sa : Option (Nat × (T ⊕ E))) (t : Nat) :
    ResourceState T E S :=
  match sa with
  | none => createResource T E s
  | some (t0, o) => if t < t0 then createResource T E s else settledState T E s o

end MFDemo

namespace MFDemo

/-- C2: `read()` throws the underlying awaitable while the resource is
pending, re-raises the stored error once the resource is rejected, and
returns the stored resolved value once the resource is resolved — stated
both for the concrete states produced by `createResource` and the two
settlement callbacks, and for any state with the corresponding `status`
string. -/
theorem read_contract {T E S : Type} (s : S) (r0 : ResourceState T E S) (v : T) (e : E) :
    (createResource T E s).read = ReadOutcome.throwSuspender s
    ∧ (onRejected r0 e).read = ReadOutcome.throwResult (some (Sum.inr e))
    ∧ (onFulfilled r0 v).read = ReadOutcome.returnResult (some (Sum.inl v))
    ∧ (∀ r : ResourceState T E S, r.status = "pending" →
        r.read = ReadOutcome.throwSuspender r.suspender)
    ∧ (∀ r : ResourceState T E S, r.status = "error" →
        r.read = ReadOutcome.throwResult r.result)
    ∧ (∀ r : ResourceState T E S, r.status = "success" →
        r.read = ReadOutcome.returnResult r.result) := by
  refine ⟨rfl, rfl, rfl, ?_, ?_, ?_⟩ <;>
    intro r h <;> simp [ResourceState.read, h]

/-- Witness for `read_contract` at concrete types and inputs. -/
theorem read_contract_witness :
    ((⟨"pending", none, 7⟩ : ResourceState Nat String Nat).status = "pending")
    ∧ (⟨"pending", none, 7⟩ : ResourceState Nat String Nat).read
        = ReadOutcome.throwSuspender 7 :=
  ⟨rfl, (read_contract 7 (⟨"pending", none, 7⟩ : ResourceState Nat String Nat)
      0 "boom").2.2.2.1 ⟨"pending", none, 7⟩ rfl⟩

/-- C3: along a resource's timeline, the state either stays put or moves from
the pending state to a settled one (never the reverse); once the status has
left `"pending"` the state never changes again; and once rejected with error
`e`, every later `read` re-raises exactly `e`. -/
theorem resource_monotone {T E S : Type} (s : S) (sa : Option (Nat × (T ⊕ E)))
    (t t' : Nat) (ht : t ≤ t') :
    (resourceAt T E s sa t' = resourceAt T E s sa t
      ∨ (resourceAt T E s sa t = createResource T E s
          ∧ ((∃ v, resourceAt T E s sa t' = onFulfilled (createResource T E s) v)
             ∨ (∃ e, resourceAt T E s sa t' = onRejected (createResource T E s) e))))
    ∧ ((resourceAt T E s sa t).status ≠ "pending" →
        resourceAt T E s sa t' = resourceAt T E s sa t)
    ∧ (∀ e, resourceAt T E s sa t = onRejected (createResource T E s) e →
        (resourceAt T E s sa t').read = ReadOutcome.throwResult (some (Sum.inr e))) := by
  rcases sa with _ | ⟨t0, o⟩
  · refine ⟨Or.inl rfl, fun h => rfl, fun e he => ?_⟩
    exact absurd (congrArg ResourceState.status he)
      (by simp [resourceAt, createResource, onRejected])
  · simp only [resourceAt]
    by_cases h1 : t' < t0
    · have h2 : t < t0 := lt_of_le_of_lt ht h1
      rw [if_pos h1, if_pos h2]
      refine ⟨Or.inl rfl, fun h => rfl, fun e he => ?_⟩
      exact absurd (congrArg ResourceState.status he)
        (by simp [createResource, onRejected])
    · rw [if_neg h1]
      by_cases h2 : t < t0
      · rw [if_pos h2]
        refine ⟨Or.inr ⟨rfl, ?_⟩, fun h => absurd rfl h, fun e he => ?_⟩
        · rcases o with v | e
          · exact Or.inl ⟨v, rfl⟩
          · exact Or.inr ⟨e, rfl⟩
        · exact absurd (congrArg ResourceState.status he)
            (by simp [createResource, onRejected])
      · rw [if_neg h2]
        refine ⟨Or.inl rfl, fun h => rfl, fun e he => ?_⟩
        rcases o with v | e'
        · exact absurd (congrArg ResourceState.status he)
            (by simp [settledState, createResource, onFulfilled, onRejected])
        · have : e' = e := by
            have := congrArg ResourceState.result he
            simpa [settledState, createResource, onRejected] using this
          subst this
          rfl

/-- Witness for `resource_monotone`: a resource whose awaitable rejects with
`"boom"` at time 1, observed at times 1 and 2. -/
theorem resource_monotone_witness :
    (1 : Nat) ≤ 2
    ∧ (resourceAt Nat String 0 (some (1, Sum.inr "boom")) 2).read
        = ReadOutcome.throwResult (some (Sum.inr "boom")) :=
  ⟨by norm_num,
    (resource_monotone 0 (some (1, Sum.inr "boom")) 1 2 (by norm_num)).2.2 "boom" rfl⟩

end MFDemo

namespace MFDemo

/-! ## The resource cache (`resourceCache`, `getResource`, `clearResourceCache`)

`resourceCache` is a `Map<string, Resource<void>>` in insertion order;
`entries` models it as the key ↦ resource-identity association list.  A
Resource object's identity is the index of its `createResource` call in
`createdLog`, which records one `(key, delayMs)` pair per factory invocation
(per call of `createResource(() => delay(delayMs))`), so "same Resource
object" is "same index" and "the factory ran n times for key k" is "n
entries of `createdLog` carry key k". -/

structure CacheState where
  entries : List (String × Nat)
  createdLog : List (String × Nat)
deriving DecidableEq

/-- `resourceCache.get(key)` (as used after the `has` check). -/
def CacheState.lookup (c : CacheState) (k : String) : Option Nat :=
  (c.entries.find? (fun kv => kv.1 == k)).map (fun kv => kv.2)

/-- `getResource(key, delayMs)`: on a miss, create a resource via the factory
(recorded in `createdLog`) and store it under `key`; then return the cached
resource. -/
def getResource (c : CacheState) (key : String) (delayMs : Nat) : CacheState × Nat :=
  match c.lookup key with
  | some rid => (c, rid)
  | none =>
      ({ entries := c.entries ++ [(key, c.createdLog.length)],
         createdLog := c.createdLog ++ [(key, delayMs)] },
       c.createdLog.length)

/-- `clearResourceCache()`: `resourceCache.clear()` — removes every entry. -/
def clearResourceCache (c : CacheState) : CacheState :=
  { c with entries := [] }

/-- Number of factory invocations performed so far for key `k`. -/
def factoryCalls (c : CacheState) (k : String) : Nat :=
  (c.createdLog.filter (fun e => e.1 == k)).length

/-- Run a sequence of `getResource` calls (key, delayMs) against a cache. -/
def runCalls (c : CacheState) : List (String × Nat) → CacheState
  | [] => c
  | call :: rest => runCalls (getResource c call.1 call.2).1 rest

/-- A key the spec's "starts with" phrase can be checked against:
`beginsWith p k` decides whether `k` begins with `p`. -/
def beginsWith : List Char → List Char → Bool
  | [], _ => true
  | _ :: _, [] => false
  | a :: as, b :: bs => a == b && beginsWith as bs

/-- Whether string `k` starts with the key prefix `p`. -/
def keyBeginsWith (p k : String) : Bool := beginsWith p.data k.data

theorem getResource_caches (c : CacheState) (k : String) (d : Nat) :
    ((getResource c k d).1).lookup k = some (getResource c k d).2 := by
  unfold getResource
  cases h : c.lookup k with
  | some rid => simp [h]
  | none =>
      simp only [h]
      unfold CacheState.lookup at h ⊢
      have h1 : c.entries.find? (fun kv => kv.1 == k) = none := by
        rcases h2 : c.entries.find? (fun kv => kv.1 == k) with _ | kv
        · exact h2
        · rw [h2] at h; cases h
      rw [List.find?_append, h1]
      simp [List.find?]

theorem lookup_getResource_stable (c : CacheState) (k k' : String) (r d : Nat)
    (h : c.lookup k = some r) :
    ((getResource c k' d).1).lookup k = some r
    ∧ factoryCalls (getResource c k' d).1 k = factoryCalls c k := by
  unfold getResource
  cases h' : c.lookup k' with
  | some rid => exact ⟨h, rfl⟩
  | none =>
      have hne : (k' == k) = false := by
        rcases eq_or_ne k' k with rfl | hkk
        · rw [h] at h'; cases h'
        · simpa using hkk
      constructor
      · unfold CacheState.lookup at h ⊢
        simp only [List.find?_append]
        rcases h1 : c.entries.find? (fun kv => kv.1 == k) with _ | kv
        · simp [h1] at h
        · rw [h1] at h
          simp only [h1, Option.some_orElse]
          exact h
      · unfold factoryCalls
        simp [List.filter_append, hne]

theorem runCalls_factory_stable (calls : List (String × Nat)) (c : CacheState)
    (k : String) (r : Nat) (h : c.lookup k = some r) :
    factoryCalls (runCalls c calls) k = factoryCalls c k := by
  induction calls generalizing c with
  | nil => rfl
  | cons call rest ih =>
      have h2 := lookup_getResource_stable c k call.1 r call.2 h
      calc factoryCalls (runCalls (getResource c call.1 call.2).1 rest) k
          = factoryCalls (getResource c call.1 call.2).1 k := ih _ h2.1
        _ = factoryCalls c k := h2.2

theorem getResource_hit (c : CacheState) (k : String) (d r : Nat)
    (h : c.lookup k = some r) : getResource c k d = (c, r) := by
  unfold getResource; rw [h]

/-- Claim C1: a second `getResource` call for an already-created key returns
the very same cache and the very same Resource (so the factory is not run
again); one call runs the factory exactly once on a miss and never on a hit;
and once the key is cached, no further sequence of `getResource` calls ever
runs the factory for that key again. -/
theorem getResource_factory_once (c : CacheState) (k : String) (d d' : Nat) :
    getResource (getResource c k d).1 k d' = getResource c k d
    ∧ factoryCalls (getResource c k d).1 k
        = (if (c.lookup k).isSome then factoryCalls c k else factoryCalls c k + 1)
    ∧ (∀ calls : List (String × Nat),
        factoryCalls (runCalls (getResource c k d).1 calls) k
          = factoryCalls (getResource c k d).1 k) := by
  refine ⟨?_, ?_, ?_⟩
  · rw [getResource_hit _ _ _ _ (getResource_caches c k d)]
  · cases h : c.lookup k with
    | some rid =>
        rw [getResource_hit c k d rid h]
        simp [h]
    | none =>
        unfold getResource
        rw [h]
        simp [h, factoryCalls, List.filter_append]
  · intro calls
    exact runCalls_factory_stable calls _ k _ (getResource_caches c k d)

/-- Claim C10: the `delayMs` argument only matters on the call that first
creates a key's entry — after a first call with delay `d1`, a second call
with any `d2` returns exactly what a second call with `d1` would, and the
resource it returns is the one the first call created; more generally, on an
already-cached key `getResource` ignores the delay entirely. -/
theorem getResource_delay_only_first (c : CacheState) (k : String) (d1 d2 : Nat) :
    getResource (getResource c k d1).1 k d2 = getResource (getResource c k d1).1 k d1
    ∧ (getResource (getResource c k d1).1 k d2).2 = (getResource c k d1).2
    ∧ (∀ r : Nat, c.lookup k = some r → getResource c k d2 = (c, r)) := by
  have hl := getResource_caches c k d1
  refine ⟨?_, ?_, fun r hr => getResource_hit c k d2 r hr⟩
  · rw [getResource_hit _ _ _ _ hl, getResource_hit _ _ _ _ hl]
  · rw [getResource_hit _ _ _ _ hl]

/-- A concrete one-entry cache, as after the cart module's first render. -/
def cacheCart : CacheState :=
  { entries := [("cart-initial", 0)], createdLog := [("cart-initial", 3500)] }

/-- Witness for `getResource_delay_only_first` on `cacheCart`. -/
theorem getResource_delay_only_first_witness :
    cacheCart.lookup "cart-initial" = some 0
    ∧ getResource cacheCart "cart-initial" 9999 = (cacheCart, 0) :=
  ⟨by decide,
    (getResource_delay_only_first cacheCart "cart-initial" 3500 9999).2.2 0 (by decide)⟩

/-- A concrete cache holding one cart entry and one dashboard entry. -/
def cacheBoth : CacheState :=
  { entries := [("cart-initial", 0), ("dashboard-initial", 1)],
    createdLog := [("cart-initial", 3500), ("dashboard-initial", 5000)] }

/-- Claim C6 counterexample: the invalidation operation `clearResourceCache`
is not scoped to a key prefix — on a cache holding a `cart-` entry and a
`dashboard-` entry, clearing does not leave the entries that fail to start
with `"cart-"` in place; it removes the `dashboard-initial` entry too. -/
theorem clearResourceCache_not_scoped_by_key :
    ¬ ((clearResourceCache cacheBoth).entries
        = cacheBoth.entries.filter (fun kv => !(keyBeginsWith "cart-" kv.1))) := by
  decide

/-- Claim C6 amended: `clearResourceCache` takes no key prefix and removes
every entry of the resource cache unconditionally (the prefix-scoped removal
exists only in a commented-out `moduleChange` listener). -/
theorem clearResourceCache_clears_all (c : CacheState) :
    (clearResourceCache c).entries = []
    ∧ (clearResourceCache c).createdLog = c.createdLog :=
  ⟨rfl, rfl⟩

end MFDemo

namespace MFDemo

/-! ## Cart state (`ShoppingCart` in `StreamingShoppingCart.tsx`)

`CartItem` is the cart's item record (`id`, `name`, `price`, `quantity`).
JS numbers are modelled as `Rat` for prices and `Int` for quantities (the
quantity arithmetic is integer arithmetic at every call site). -/

structure CartItem where
  id : Nat
  name : String
  price : Rat
  quantity : Int
deriving DecidableEq

/-- The `setCartItems` updater inside `handleAddToCart`: if an item with the
event's id exists, bump its quantity by the event's quantity via `map`;
otherwise append the event's item. -/
def handleAddToCart (prev : List CartItem) (cartItem : CartItem) : List CartItem :=
  match prev.find? (fun item => item.id == cartItem.id) with
  | some _ =>
      prev.map (fun item =>
        if item.id == cartItem.id
        then { item with quantity := item.quantity + cartItem.quantity }
        else item)
  | none => prev ++ [cartItem]

/-- The `setCartItems` updater inside `updateQuantity`: clamp the targeted
item's new quantity at `Math.max(1, quantity + delta)`, leave others as-is. -/
def updateQuantity (prev : List CartItem) (id : Nat) (delta : Int) : List CartItem :=
  prev.map (fun item =>
    if item.id == id
    then { item with quantity := max 1 (item.quantity + delta) }
    else item)

/-- Claim C5: when the incoming item's id is already in the list, the update
keeps the length (no duplicate entry) and, position by position, bumps
exactly the entries carrying that id by the event's quantity while leaving
the rest untouched; when the id is absent, exactly the event's item is
appended; and adding the same item twice to an empty cart yields one entry
with doubled quantity. -/
theorem handleAddToCart_spec (prev : List CartItem) (x : CartItem) :
    ((prev.find? (fun it => it.id == x.id)).isSome = true →
        (handleAddToCart prev x).length = prev.length
        ∧ ∀ i : Nat, (handleAddToCart prev x)[i]? =
            (prev[i]?).map (fun it =>
              if it.id == x.id
              then { it with quantity := it.quantity + x.quantity }
              else it))
    ∧ (prev.find? (fun it => it.id == x.id) = none →
        handleAddToCart prev x = prev ++ [x])
    ∧ handleAddToCart (handleAddToCart [] x) x
        = [{ x with quantity := x.quantity + x.quantity }] := by
  refine ⟨fun hf => ?_, fun hf => ?_, ?_⟩
  · unfold handleAddToCart
    rcases h : prev.find? (fun it => it.id == x.id) with _ | it0
    · rw [h] at hf; cases hf
    · rw [h]
      exact ⟨List.length_map _ _, fun i => List.getElem?_map _ _ _⟩
  · unfold handleAddToCart
    rw [hf]
  · simp [handleAddToCart, List.find?]

/-- The add-to-cart scenario item (`{itemId:1, name:"Widget", unitPrice:9.99,
quantity:1}` from the spec). -/
def widgetItem : CartItem := { id := 1, name := "Widget", price := 9.99, quantity := 1 }

/-- Witness for `handleAddToCart_spec`: the widget is already in a
one-element cart, so the second add keeps the length at 1. -/
theorem handleAddToCart_spec_witness :
    (([widgetItem].find? (fun it => it.id == widgetItem.id)).isSome = true)
    ∧ (handleAddToCart [widgetItem] widgetItem).length = 1 :=
  ⟨rfl, ((handleAddToCart_spec [widgetItem] widgetItem).1 rfl).1⟩

/-- Claim C9: `updateQuantity` maps the targeted entry's quantity to
`max 1 (quantity + delta)` — hence never below 1 for any integer delta — and
leaves entries with a different id exactly as they were. -/
theorem updateQuantity_spec (prev : List CartItem) (tid : Nat) (d : Int)
    (i : Nat) (it : CartItem) (h : prev[i]? = some it) :
    (it.id = tid →
        (updateQuantity prev tid d)[i]?
          = some { it with quantity := max 1 (it.quantity + d) }
        ∧ ∀ q : CartItem, (updateQuantity prev tid d)[i]? = some q → 1 ≤ q.quantity)
    ∧ (it.id ≠ tid → (updateQuantity prev tid d)[i]? = some it) := by
  have hmap : (updateQuantity prev tid d)[i]?
      = (prev[i]?).map (fun item =>
          if item.id == tid
          then { item with quantity := max 1 (item.quantity + d) }
          else item) := List.getElem?_map _ _ _
  rw [h] at hmap
  have hmap2 : (updateQuantity prev tid d)[i]?
      = some (if it.id == tid
              then { it with quantity := max 1 (it.quantity + d) }
              else it) := hmap
  constructor
  · intro hid
    have hb : (it.id == tid) = true := by simpa using hid
    rw [if_pos hb] at hmap2
    refine ⟨hmap2, fun q hq => ?_⟩
    rw [hmap2] at hq
    have hq2 : q = { it with quantity := max 1 (it.quantity + d) } :=
      (Option.some_inj.mp hq).symm
    rw [hq2]
    exact le_max_left 1 _
  · intro hid
    have hb : ¬ ((it.id == tid) = true) := by simpa using hid
    rw [if_neg hb] at hmap2
    exact hmap2

/-- Witness for `updateQuantity_spec`: decrementing the widget (quantity 1)
by 5 clamps its quantity at 1. -/
theorem updateQuantity_spec_witness :
    ([widgetItem][0]? = some widgetItem)
    ∧ (updateQuantity [widgetItem] 1 (-5))[0]?
        = some { widgetItem with quantity := max 1 (widgetItem.quantity + (-5)) } :=
  ⟨rfl, ((updateQuantity_spec [widgetItem] 1 (-5) 0 widgetItem rfl).1 rfl).1⟩

end MFDemo

namespace MFDemo

/-! ## Host notifications (`App` in `packages/shell/src/App.tsx`)

Both insertion paths — the `showNotification` listener and
`handleModuleChange` — run the same updater `[newEntry, ...prev.slice(0, 2)]`,
and an effect removes one entry with `prev.slice(0, -1)` after a 3000 ms
`setTimeout`.  The list is kept newest-first, so `slice(0, -1)` drops the
oldest entry. -/

structure Notification where
  id : String
  type : String
  message : String
deriving DecidableEq

/-- The insertion updater `prev => [entry, ...prev.slice(0, 2)]` shared by the
`showNotification` listener and `handleModuleChange`. -/
def pushNotification (n : Notification) (prev : List Notification) : List Notification :=
  n :: prev.take 2

/-- The auto-remove updater `prev => prev.slice(0, -1)` run by the timeout
effect: drops the last (oldest) entry. -/
def autoRemoveOldest (prev : List Notification) : List Notification :=
  prev.dropLast

/-- The `setTimeout` duration of the auto-remove effect. -/
def NOTIFICATION_TIMEOUT_MS : Nat := 3000

/-- The notification lists reachable from the initial `useState([])` by the
two updaters above. -/
inductive NotifReachable : List Notification → Prop
  | init : NotifReachable []
  | push (n : Notification) (l : List Notification) :
      NotifReachable l → NotifReachable (pushNotification n l)
  | timeout (l : List Notification) :
      NotifReachable l → NotifReachable (autoRemoveOldest l)

/-- Claim C7: every reachable notification list holds at most three entries;
an insertion prepends the new entry and keeps only the two most recent
previous ones; the timeout updater removes exactly the oldest (last) entry;
and the auto-dismiss timer is the fixed 3000 ms. -/
theorem notification_policy (l : List Notification) (h : NotifReachable l)
    (n : Notification) :
    l.length ≤ 3
    ∧ pushNotification n l = n :: l.take 2
    ∧ (pushNotification n l).length ≤ 3
    ∧ (∀ h2 : l ≠ [], autoRemoveOldest l ++ [l.getLast h2] = l)
    ∧ NOTIFICATION_TIMEOUT_MS = 3000 := by
  have hlen : l.length ≤ 3 := by
    induction h with
    | init => simp
    | push n' l' _ _ =>
        simp only [pushNotification, List.length_cons, List.length_take]
        omega
    | timeout l' _ ih =>
        simp only [autoRemoveOldest, List.length_dropLast]
        omega
  refine ⟨hlen, rfl, ?_, ?_, rfl⟩
  · simp only [pushNotification, List.length_cons, List.length_take]
    omega
  · intro h2
    exact List.dropLast_append_getLast h2

/-- A concrete notification as produced by `handleModuleChange`. -/
def notifInfo : Notification :=
  { id := "1", type := "info", message := "Switched to Cart module" }

/-- Witness for `notification_policy` on the singleton list reached by one
insertion into the empty initial state. -/
theorem notification_policy_witness :
    ([notifInfo].length ≤ 3)
    ∧ autoRemoveOldest [notifInfo] ++ [List.getLast [notifInfo] (by simp)] = [notifInfo] := by
  have h : NotifReachable [notifInfo] :=
    NotifReachable.push notifInfo [] NotifReachable.init
  exact ⟨(notification_policy [notifInfo] h notifInfo).1,
    (notification_policy [notifInfo] h notifInfo).2.2.2.1 (by simp)⟩

end MFDemo

namespace MFDemo

/-! ## Remote module loading (`App.tsx` lazy imports)

Each of the three remotes is loaded with
`lazy(() => import("…").catch(error => ({ default: <ModuleFallback …/> })))`.
The dynamic import either resolves with the remote's real component or
rejects; the `.catch` turns every rejection into a successful resolution to a
`ModuleFallback` with a fixed title and message.  `C` is the component type,
`E` the import error type. -/

inductive LoadedModule (C : Type) where
  | real (c : C)
  | moduleFallback (title message : String)
deriving DecidableEq

/-- `import(...).catch(error => ({default: <ModuleFallback title message/>}))`. -/
def lazyWithCatch {C E : Type} (title message : String) (imp : Except E C) :
    Except E (LoadedModule C) :=
  match imp with
  | Except.ok comp => Except.ok (LoadedModule.real comp)
  | Except.error _ => Except.ok (LoadedModule.moduleFallback title message)

/-- The `StreamingProductsCatalog` lazy loader in `App.tsx`. -/
def loadStreamingProductsCatalog {C E : Type} (imp : Except E C) :
    Except E (LoadedModule C) :=
  lazyWithCatch "Products Module Unavailable"
    "The products service is currently unavailable." imp

/-- The `StreamingShoppingCart` lazy loader in `App.tsx`. -/
def loadStreamingShoppingCart {C E : Type} (imp : Except E C) :
    Except E (LoadedModule C) :=
  lazyWithCatch "Cart Module Unavailable"
    "The cart service is currently unavailable." imp

/-- The `StreamingUserDashboard` lazy loader in `App.tsx`. -/
def loadStreamingUserDashboard {C E : Type} (imp : Except E C) :
    Except E (LoadedModule C) :=
  lazyWithCatch "Dashboard Module Unavailable"
    "The dashboard service is currently unavailable." imp

/-- Claim C4: each of the host's three remote loads always settles to a
value — the remote's real component on a successful import, the static
`ModuleFallback` (with that module's fixed title and message) on a failed
one — and never settles to a rejection. -/
theorem remote_load_never_rejects {C E : Type} (imp : Except E C) (c : C) (e : E) :
    (∃ v, loadStreamingProductsCatalog imp = Except.ok v)
    ∧ (∃ v, loadStreamingShoppingCart imp = Except.ok v)
    ∧ (∃ v, loadStreamingUserDashboard imp = Except.ok v)
    ∧ loadStreamingProductsCatalog (Except.ok c : Except E C)
        = Except.ok (LoadedModule.real c)
    ∧ loadStreamingProductsCatalog (Except.error e : Except E C)
        = Except.ok (LoadedModule.moduleFallback "Products Module Unavailable"
            "The products service is currently unavailable.")
    ∧ loadStreamingShoppingCart (Except.ok c : Except E C)
        = Except.ok (LoadedModule.real c)
    ∧ loadStreamingShoppingCart (Except.error e : Except E C)
        = Except.ok (LoadedModule.moduleFallback "Cart Module Unavailable"
            "The cart service is currently unavailable.")
    ∧ loadStreamingUserDashboard (Except.ok c : Except E C)
        = Except.ok (LoadedModule.real c)
    ∧ loadStreamingUserDashboard (Except.error e : Except E C)
        = Except.ok (LoadedModule.moduleFallback "Dashboard Module Unavailable"
            "The dashboard service is currently unavailable.") := by
  refine ⟨?_, ?_, ?_, rfl, rfl, rfl, rfl, rfl, rfl⟩ <;>
    cases imp <;> exact ⟨_, rfl⟩

end MFDemo

namespace MFDemo

/-! ## Event bus dispatch -/

/-- Modelled from the spec: the event bus implementation behind
`window.dispatchEvent` / `window.addEventListener` is the browser's, not
part of this repository's source — only its callers are (the products
catalog's `handleAddToCart` wraps its publish calls in `try`/`catch`).  Per
spec §4.3/§7, `publish(type, payload)` synchronously invokes every
currently-registered subscriber for the type in registration order, and a
subscriber exception is not isolated by the bus: it propagates out of
`publish`, and the subscribers still pending after the throwing one do not
run.  A handler maps the payload to `Except E Unit`; `publish` returns how
many handlers ran (always a prefix of the registration order) together with
the propagated exception, if any. -/
def publish {P E : Type} (handlers : List (P → Except E Unit)) (payload : P) :
    Nat × Option E :=
  match handlers with
  | [] => (0, none)
  | h :: rest =>
      match h payload with
      | Except.ok _ =>
          let r := publish rest payload
          (r.1 + 1, r.2)
      | Except.error e => (1, some e)

/-- Claim C8: if the handlers registered for a type are `pre ++ f :: post`,
every handler in `pre` succeeds on the payload and `f` throws `e`, then
`publish` runs exactly the `pre.length + 1` handlers up to and including `f`
— so none of `post` is invoked — and the exception `e` propagates out of the
publish call. -/
theorem publish_fail_fast {P E : Type} (pre post : List (P → Except E Unit))
    (f : P → Except E Unit) (p : P) (e : E)
    (hpre : ∀ g ∈ pre, g p = Except.ok ())
    (hf : f p = Except.error e) :
    publish (pre ++ f :: post) p = (pre.length + 1, some e) := by
  induction pre with
  | nil => simp [publish, hf]
  | cons g rest ih =>
      have hg : g p = Except.ok () := hpre g (List.mem_cons_self g rest)
      have ih2 := ih fun g' hg' => hpre g' (List.mem_cons_of_mem _ hg')
      simp [publish, hg, ih2]

/-- A handler that succeeds on every payload. -/
def okHandler : Nat → Except String Unit := fun _ => Except.ok ()

/-- A handler that throws on every payload. -/
def boomHandler : Nat → Except String Unit := fun _ => Except.error "boom"

/-- Witness for `publish_fail_fast`: with a succeeding handler before the
throwing one and another after it, only two handlers run and the exception
escapes the publish call. -/
theorem publish_fail_fast_witness :
    boomHandler 0 = Except.error "boom"
    ∧ publish [okHandler, boomHandler, okHandler] 0 = (2, some "boom") := by
  have hpre : ∀ g ∈ [okHandler], g 0 = Except.ok () := by
    intro g hg
    rw [List.mem_singleton.mp hg]
    rfl
  exact ⟨rfl, publish_fail_fast [okHandler] [okHandler] boomHandler 0 "boom" hpre rfl⟩

end MFDemo

